import Mathlib

/-!
Shallow embedding of the QR-code scanner node
(src/qrcode_pkg_py/qrcode_python.py) and proofs about its per-frame
pipeline: frame throttling, decode-result deduplication, rate-limited
URL side effect, CSV history persistence, and the FPS estimator.

Wall-clock instants (Python float seconds from time.time) are modeled as
values of an arbitrary linearly ordered commutative ring K; the source
only ever subtracts and compares instants.  External collaborators
(camera, QR decoder, file system, browser, clock) are modeled as inputs
supplied to each step.
-/

namespace QRScan

/-- Mutable state of the scanner node that the pipeline reads and writes
(fields of QRCodeScanner set in __init__ and mutated by process_frame and
handle_qr_data).  K is the instant type. -/
structure PipelineState (K : Type) where
  last_decoded_data : Option String
  last_open_time : K
  frame_count : Nat
  fps : Nat
  start_time : K
  decoded_data : List String
  frame_counter : Nat
  deriving DecidableEq

/-- The scan_history.csv file as seen by save_to_csv: whether it exists
on disk, and its rows (each row a list of cells). -/
structure CsvFile where
  present : Bool
  rows : List (List String)
  deriving DecidableEq

/-- Combined state: in-memory pipeline state plus the CSV file. -/
structure SysState (K : Type) where
  pipe : PipelineState K
  csv : CsvFile
  deriving DecidableEq

/-- Configuration parameters declared in __init__ (base_save_dir is not
modeled; it only fixes file paths). -/
structure Config (K : Type) where
  show_gui : Bool
  skip_frames : Nat
  open_interval : K
  deriving DecidableEq

/-- One successfully UTF-8-decoded QR payload handled in a tick, together
with the external inputs consumed while handling it: the clock value read
by handle_qr_data, the formatted timestamp string written to the CSV, and
whether the CSV append succeeds (the try/except in save_to_csv). -/
structure QrEvent (K : Type) where
  payload : String
  now : K
  ts : String
  saveOk : Bool
  deriving DecidableEq

/-- Result of handle_qr_data: the state after the call, the returned
value (assigned to last_decoded_data by the caller), whether the payload
was classified as new (the outer if-branch was taken), and whether the
browser-opening side effect was dispatched. -/
structure HandleResult (K : Type) where
  state : SysState K
  ret : Option String
  accepted : Bool
  dispatched : Bool
  deriving DecidableEq

/-- Test from is_url: re.match of the anchored pattern (h t t p s? : / /)
against the start of the string, i.e. the string starts with one of the
two scheme strings. -/
def is_url (s : String) : Bool :=
  "http://".toList.isPrefixOf s.toList || "https://".toList.isPrefixOf s.toList

/-- Header row written by save_to_csv when the file does not yet exist. -/
def csvHeader : List String := ["时间", "二维码内容"]

/-- Successful body of save_to_csv: open in append mode (creating the
file if absent), write the header row when the file did not exist, then
write one data row (formatted timestamp, content). -/
def save_to_csv (fs : CsvFile) (ts data : String) : CsvFile :=
  if fs.present then { present := true, rows := fs.rows ++ [[ts, data]] }
  else { present := true, rows := fs.rows ++ [csvHeader, [ts, data]] }

/-- The save_to_csv call including its try/except: on failure the
exception is caught and logged, nothing is written and nothing
propagates to the caller (modeled by returning the file unchanged). -/
def save_to_csv_attempt (ok : Bool) (fs : CsvFile) (ts data : String) : CsvFile :=
  if ok then save_to_csv fs ts data else fs

/-- Body of handle_qr_data.  The payload is processed when it differs
from last_decoded_data and is not in decoded_data; then it is appended
to decoded_data, saved to CSV, and if URL-shaped with
now - last_open_time > open_interval a browser thread is started and
last_open_time is set to now.  The function returns QR_data when new and
last_decoded_data otherwise; it does not itself write
last_decoded_data. -/
def handle_qr_data {K : Type} [LinearOrderedCommRing K]
    (interval : K) (s : SysState K) (e : QrEvent K) : HandleResult K :=
  if some e.payload ≠ s.pipe.last_decoded_data ∧ e.payload ∉ s.pipe.decoded_data then
    let p1 := { s.pipe with decoded_data := s.pipe.decoded_data ++ [e.payload] }
    let csv1 := save_to_csv_attempt e.saveOk s.csv e.ts e.payload
    if is_url e.payload then
      if interval < e.now - p1.last_open_time then
        { state := { pipe := { p1 with last_open_time := e.now }, csv := csv1 },
          ret := some e.payload, accepted := true, dispatched := true }
      else
        { state := { pipe := p1, csv := csv1 },
          ret := some e.payload, accepted := true, dispatched := false }
    else
      { state := { pipe := p1, csv := csv1 },
        ret := some e.payload, accepted := true, dispatched := false }
  else
    { state := s, ret := s.pipe.last_decoded_data, accepted := false, dispatched := false }

/-- One handled payload as seen from process_frame, which executes
self.last_decoded_data = self.handle_qr_data(QR_data). -/
def handleStep {K : Type} [LinearOrderedCommRing K]
    (interval : K) (s : SysState K) (e : QrEvent K) : SysState K :=
  let r := handle_qr_data interval s e
  { r.state with pipe := { r.state.pipe with last_decoded_data := r.ret } }

/-- A sequence of handled payloads. -/
def runState {K : Type} [LinearOrderedCommRing K]
    (interval : K) (s : SysState K) (events : List (QrEvent K)) : SysState K :=
  events.foldl (handleStep interval) s

/-- Instants at which the browser side effect is dispatched along a run
(the clock values read when the thread is started). -/
def dispatchTimes {K : Type} [LinearOrderedCommRing K]
    (interval : K) : SysState K → List (QrEvent K) → List K
  | _, [] => []
  | s, e :: es =>
    (if (handle_qr_data interval s e).dispatched then [e.now] else []) ++
      dispatchTimes interval (handleStep interval s e) es

/-- Frame-skip logic at the top of process_frame:
frame_counter = (frame_counter + 1) % (skip_frames + 1), and the tick
proceeds only when the new counter is 0.  Returns the new counter and
whether the tick proceeds. -/
def shouldProcess (skip c : Nat) : Nat × Bool :=
  let c1 := (c + 1) % (skip + 1)
  (c1, c1 == 0)

/-- Proceed-flags of a number of consecutive ticks of the throttle,
starting from counter value c. -/
def throttleRun (skip : Nat) : Nat → Nat → List Bool
  | _, 0 => []
  | c, Nat.succ m =>
    (shouldProcess skip c).2 :: throttleRun skip (shouldProcess skip c).1 m

/-- FPS block of process_frame: frame_count += 1; if time.time() -
start_time ≥ 1.0 then fps := frame_count, frame_count := 0, start_time
:= time.time().  The two clock reads are the inputs t1 and t2. -/
def fpsUpdate {K : Type} [LinearOrderedCommRing K]
    (s : PipelineState K) (t1 t2 : K) : PipelineState K :=
  let s1 := { s with frame_count := s.frame_count + 1 }
  if 1 ≤ t1 - s1.start_time then
    { s1 with fps := s1.frame_count, frame_count := 0, start_time := t2 }
  else s1

/-- External inputs consumed by one invocation of process_frame: whether
cap.read succeeds, the two clock reads of the FPS block, and the decoded
regions of the frame in order (none marks a region whose payload bytes
fail UTF-8 decoding and is skipped). -/
structure FrameInput (K : Type) where
  readOk : Bool
  t1 : K
  t2 : K
  regions : List (Option (QrEvent K))
  deriving DecidableEq

/-- One invocation of process_frame: advance the throttle counter and
return unless it reached 0; read a frame and return on failure; update
the FPS estimate; handle each decodable region in order.  Rendering,
key handling and screenshots (show_gui branch) touch none of the modeled
state. -/
def process_frame {K : Type} [LinearOrderedCommRing K]
    (cfg : Config K) (s : SysState K) (inp : FrameInput K) : SysState K :=
  let t := shouldProcess cfg.skip_frames s.pipe.frame_counter
  let s1 : SysState K := { s with pipe := { s.pipe with frame_counter := t.1 } }
  if t.2 = false then s1
  else if inp.readOk = false then s1
  else
    let s2 : SysState K := { s1 with pipe := fpsUpdate s1.pipe inp.t1 inp.t2 }
    inp.regions.foldl
      (fun acc reg =>
        match reg with
        | none => acc
        | some ev => handleStep cfg.open_interval acc ev) s2

/-- State of the node right after __init__ (t0 is the clock value stored
in start_time); the CSV file on disk is whatever the process finds. -/
def initPipe {K : Type} [LinearOrderedCommRing K] (t0 : K) : PipelineState K :=
  { last_decoded_data := none, last_open_time := 0, frame_count := 0, fps := 0,
    start_time := t0, decoded_data := [], frame_counter := 0 }

/-- Combined initial state. -/
def initSys {K : Type} [LinearOrderedCommRing K] (t0 : K) (fs : CsvFile) : SysState K :=
  { pipe := initPipe t0, csv := fs }

/-- A sequence of successful save_to_csv calls, each given its formatted
timestamp and content. -/
def runAppends (fs : CsvFile) (l : List (String × String)) : CsvFile :=
  l.foldl (fun acc q => save_to_csv acc q.1 q.2) fs

example : is_url "https://example.com" = true := by decide
example : is_url "http://a" = true := by decide
example : is_url "hello world" = false := by decide
example : is_url "Https://x" = false := by decide

example :
    (handleStep (5 : ℤ) (initSys 0 ⟨false, []⟩) ⟨"https://a", 10, "t", true⟩).pipe.decoded_data
      = ["https://a"] := by decide

example :
    (handle_qr_data (5 : ℤ) (initSys 0 ⟨false, []⟩) ⟨"https://a", 10, "t", true⟩).dispatched
      = true := by decide

example :
    (handle_qr_data (5 : ℤ) (initSys 0 ⟨false, []⟩) ⟨"https://a", 3, "t", true⟩).dispatched
      = false := by decide

example : throttleRun 2 0 6 = [false, false, true, false, false, true] := by decide

/-- New-payload branch of handle_qr_data, written out. -/
theorem handle_new {K : Type} [LinearOrderedCommRing K] (interval : K)
    (s : SysState K) (e : QrEvent K)
    (h : some e.payload ≠ s.pipe.last_decoded_data ∧ e.payload ∉ s.pipe.decoded_data) :
    handle_qr_data interval s e =
      { state :=
          { pipe :=
              { s.pipe with
                decoded_data := s.pipe.decoded_data ++ [e.payload],
                last_open_time :=
                  if is_url e.payload = true ∧ interval < e.now - s.pipe.last_open_time then
                    e.now
                  else s.pipe.last_open_time },
            csv := save_to_csv_attempt e.saveOk s.csv e.ts e.payload },
        ret := some e.payload, accepted := true,
        dispatched :=
          is_url e.payload && decide (interval < e.now - s.pipe.last_open_time) } := by
  simp only [handle_qr_data, if_pos h]
  by_cases hu : is_url e.payload = true
  · by_cases hlt : interval < e.now - s.pipe.last_open_time
    · simp [hu, hlt]
    · simp [hu, hlt]
  · simp [hu]

/-- Seen-payload branch of handle_qr_data, written out. -/
theorem handle_not_new {K : Type} [LinearOrderedCommRing K] (interval : K)
    (s : SysState K) (e : QrEvent K)
    (h : ¬(some e.payload ≠ s.pipe.last_decoded_data ∧ e.payload ∉ s.pipe.decoded_data)) :
    handle_qr_data interval s e =
      { state := s, ret := s.pipe.last_decoded_data,
        accepted := false, dispatched := false } := by
  simp only [handle_qr_data, if_neg h]

/-- Combined effect of a new payload once the caller stores the returned
value into last_decoded_data. -/
theorem handleStep_new {K : Type} [LinearOrderedCommRing K] (interval : K)
    (s : SysState K) (e : QrEvent K)
    (h : some e.payload ≠ s.pipe.last_decoded_data ∧ e.payload ∉ s.pipe.decoded_data) :
    handleStep interval s e =
      { pipe :=
          { s.pipe with
            last_decoded_data := some e.payload,
            decoded_data := s.pipe.decoded_data ++ [e.payload],
            last_open_time :=
              if is_url e.payload = true ∧ interval < e.now - s.pipe.last_open_time then
                e.now
              else s.pipe.last_open_time },
        csv := save_to_csv_attempt e.saveOk s.csv e.ts e.payload } := by
  simp only [handleStep, handle_new interval s e h]

/-- A seen payload leaves the whole state unchanged. -/
theorem handleStep_not_new {K : Type} [LinearOrderedCommRing K] (interval : K)
    (s : SysState K) (e : QrEvent K)
    (h : ¬(some e.payload ≠ s.pipe.last_decoded_data ∧ e.payload ∉ s.pipe.decoded_data)) :
    handleStep interval s e = s := by
  simp only [handleStep, handle_not_new interval s e h]

/-- The acceptance flag is exactly the dedup condition of the source. -/
theorem accepted_iff {K : Type} [LinearOrderedCommRing K] (interval : K)
    (s : SysState K) (e : QrEvent K) :
    (handle_qr_data interval s e).accepted = true ↔
      (some e.payload ≠ s.pipe.last_decoded_data ∧ e.payload ∉ s.pipe.decoded_data) := by
  by_cases h : some e.payload ≠ s.pipe.last_decoded_data ∧ e.payload ∉ s.pipe.decoded_data
  · rw [handle_new interval s e h]; simp [h]
  · rw [handle_not_new interval s e h]; simp [h]

/-- The browser thread is started exactly for a new URL-shaped payload
whose clock gap exceeds open_interval. -/
theorem dispatch_iff {K : Type} [LinearOrderedCommRing K] (interval : K)
    (s : SysState K) (e : QrEvent K) :
    (handle_qr_data interval s e).dispatched = true ↔
      ((some e.payload ≠ s.pipe.last_decoded_data ∧ e.payload ∉ s.pipe.decoded_data) ∧
        is_url e.payload = true ∧ interval < e.now - s.pipe.last_open_time) := by
  by_cases h : some e.payload ≠ s.pipe.last_decoded_data ∧ e.payload ∉ s.pipe.decoded_data
  · rw [handle_new interval s e h]
    simp [h, Bool.and_eq_true, decide_eq_true_eq]
  · rw [handle_not_new interval s e h]
    simp [h]

/-- A dispatch stamps last_open_time with the clock value it read. -/
theorem lastOpen_dispatched {K : Type} [LinearOrderedCommRing K] (interval : K)
    (s : SysState K) (e : QrEvent K)
    (h : (handle_qr_data interval s e).dispatched = true) :
    (handleStep interval s e).pipe.last_open_time = e.now := by
  have hc := (dispatch_iff interval s e).mp h
  rw [handleStep_new interval s e hc.1]
  simp [hc.2]

/-- Without a dispatch, last_open_time is untouched. -/
theorem lastOpen_not_dispatched {K : Type} [LinearOrderedCommRing K] (interval : K)
    (s : SysState K) (e : QrEvent K)
    (h : (handle_qr_data interval s e).dispatched = false) :
    (handleStep interval s e).pipe.last_open_time = s.pipe.last_open_time := by
  by_cases hc : some e.payload ≠ s.pipe.last_decoded_data ∧ e.payload ∉ s.pipe.decoded_data
  · rw [handleStep_new interval s e hc]
    have hx : ¬(is_url e.payload = true ∧ interval < e.now - s.pipe.last_open_time) := by
      intro hx
      have hd := (dispatch_iff interval s e).mpr ⟨hc, hx.1, hx.2⟩
      rw [hd] at h
      simp at h
    simp [hx]
  · rw [handleStep_not_new interval s e hc]

/-- decoded_data only grows across one handled payload. -/
theorem mem_decoded_handleStep {K : Type} [LinearOrderedCommRing K] (interval : K)
    (s : SysState K) (e : QrEvent K) (p : String)
    (h : p ∈ s.pipe.decoded_data) : p ∈ (handleStep interval s e).pipe.decoded_data := by
  by_cases hc : some e.payload ≠ s.pipe.last_decoded_data ∧ e.payload ∉ s.pipe.decoded_data
  · rw [handleStep_new interval s e hc]
    simp only [List.mem_append]
    exact Or.inl h
  · rw [handleStep_not_new interval s e hc]
    exact h

/-- decoded_data only grows across a run of handled payloads. -/
theorem mem_decoded_runState {K : Type} [LinearOrderedCommRing K] (interval : K) :
    ∀ (es : List (QrEvent K)) (s : SysState K) (p : String),
      p ∈ s.pipe.decoded_data → p ∈ (runState interval s es).pipe.decoded_data
  | [], _, _, h => h
  | e :: es, s, p, h =>
    mem_decoded_runState interval es (handleStep interval s e) p
      (mem_decoded_handleStep interval s e p h)

/-- A payload already recorded in decoded_data is never accepted. -/
theorem not_accepted_of_mem {K : Type} [LinearOrderedCommRing K] (interval : K)
    (s : SysState K) (e : QrEvent K)
    (h : e.payload ∈ s.pipe.decoded_data) :
    (handle_qr_data interval s e).accepted = false := by
  rw [handle_not_new interval s e (fun hc => hc.2 h)]

/-- An accepted payload lands in decoded_data. -/
theorem accepted_mem {K : Type} [LinearOrderedCommRing K] (interval : K)
    (s : SysState K) (e : QrEvent K)
    (h : (handle_qr_data interval s e).accepted = true) :
    e.payload ∈ (handleStep interval s e).pipe.decoded_data := by
  have hc := (accepted_iff interval s e).mp h
  rw [handleStep_new interval s e hc]
  simp

/-- Any property preserved by single handled payloads holds after a run. -/
theorem runState_inv {K : Type} [LinearOrderedCommRing K] (interval : K)
    (P : SysState K → Prop)
    (hstep : ∀ s e, P s → P (handleStep interval s e)) :
    ∀ (es : List (QrEvent K)) (s : SysState K), P s → P (runState interval s es)
  | [], _, h => h
  | e :: es, s, h => runState_inv interval P hstep es (handleStep interval s e) (hstep s e h)

/-- C1: for every payload p and every pipeline state, handle_qr_data
classifies p as new iff p differs from last_decoded_data and is not a
member of decoded_data; when new it appends p to decoded_data and (via
the caller's assignment of the return value) makes p the new
last_decoded_data, and when not new it leaves last_decoded_data
unchanged. -/
theorem claimC1 (K : Type) [LinearOrderedCommRing K] (interval : K)
    (s : SysState K) (e : QrEvent K) :
    ((handle_qr_data interval s e).accepted = true ↔
      (some e.payload ≠ s.pipe.last_decoded_data ∧ e.payload ∉ s.pipe.decoded_data)) ∧
    ((handle_qr_data interval s e).accepted = true →
      (handleStep interval s e).pipe.decoded_data = s.pipe.decoded_data ++ [e.payload] ∧
      (handleStep interval s e).pipe.last_decoded_data = some e.payload) ∧
    ((handle_qr_data interval s e).accepted = false →
      (handleStep interval s e).pipe.last_decoded_data = s.pipe.last_decoded_data ∧
      (handleStep interval s e).pipe.decoded_data = s.pipe.decoded_data) := by
  refine ⟨accepted_iff interval s e, ?_, ?_⟩
  · intro h
    have hc := (accepted_iff interval s e).mp h
    rw [handleStep_new interval s e hc]
    exact ⟨rfl, rfl⟩
  · intro h
    by_cases hc : some e.payload ≠ s.pipe.last_decoded_data ∧ e.payload ∉ s.pipe.decoded_data
    · rw [(accepted_iff interval s e).mpr hc] at h
      simp at h
    · rw [handleStep_not_new interval s e hc]
      exact ⟨rfl, rfl⟩

/-- Witness for C1 at a concrete new payload. -/
theorem claimC1_witness :
    (handle_qr_data (5 : ℤ) (initSys 0 ⟨false, []⟩) ⟨"hello", 1, "t", true⟩).accepted = true ∧
    (handleStep (5 : ℤ) (initSys 0 ⟨false, []⟩) ⟨"hello", 1, "t", true⟩).pipe.decoded_data
        = ["hello"] ∧
    (handleStep (5 : ℤ) (initSys 0 ⟨false, []⟩) ⟨"hello", 1, "t", true⟩).pipe.last_decoded_data
        = some "hello" := by
  have h := claimC1 ℤ 5 (initSys 0 ⟨false, []⟩) ⟨"hello", 1, "t", true⟩
  exact ⟨by decide, (h.2.1 (by decide)).1, (h.2.1 (by decide)).2⟩

/-- C2: once a payload has been accepted as new, it is never classified
as new again for the remainder of the run, whatever is handled in
between. -/
theorem claimC2 (K : Type) [LinearOrderedCommRing K] (interval : K) (s0 : SysState K)
    (pre mid : List (QrEvent K)) (e eLater : QrEvent K)
    (hp : eLater.payload = e.payload)
    (hacc : (handle_qr_data interval (runState interval s0 pre) e).accepted = true) :
    (handle_qr_data interval
        (runState interval (handleStep interval (runState interval s0 pre) e) mid)
        eLater).accepted = false := by
  apply not_accepted_of_mem
  rw [hp]
  exact mem_decoded_runState interval mid _ _ (accepted_mem interval _ e hacc)

/-- Witness for C2: payload a is accepted, payload b intervenes and
becomes last_decoded_data, a second occurrence of a is rejected. -/
theorem claimC2_witness :
    (handle_qr_data (5 : ℤ) (runState 5 (initSys 0 ⟨false, []⟩) []) ⟨"a", 1, "t", true⟩).accepted
        = true ∧
    (handle_qr_data (5 : ℤ)
        (runState 5 (handleStep 5 (runState 5 (initSys 0 ⟨false, []⟩) []) ⟨"a", 1, "t", true⟩)
          [⟨"b", 2, "t", true⟩])
        ⟨"a", 3, "t", true⟩).accepted = false := by
  exact ⟨by decide,
    claimC2 ℤ 5 (initSys 0 ⟨false, []⟩) [] [⟨"b", 2, "t", true⟩] ⟨"a", 1, "t", true⟩
      ⟨"a", 3, "t", true⟩ rfl (by decide)⟩

/-- C7: when the CSV append of a new payload fails, the failure is
swallowed (the file is left as it was, nothing propagates) while the
in-memory dedup state keeps the payload: it is in decoded_data right
after the step and is never accepted again later in the run. -/
theorem claimC7 (K : Type) [LinearOrderedCommRing K] (interval : K)
    (s : SysState K) (e : QrEvent K) (mid : List (QrEvent K)) (eLater : QrEvent K)
    (hok : e.saveOk = false) (hp : eLater.payload = e.payload)
    (hacc : (handle_qr_data interval s e).accepted = true) :
    e.payload ∈ (handleStep interval s e).pipe.decoded_data ∧
    (handleStep interval s e).csv = s.csv ∧
    (handle_qr_data interval (runState interval (handleStep interval s e) mid)
        eLater).accepted = false := by
  have hc := (accepted_iff interval s e).mp hacc
  refine ⟨accepted_mem interval s e hacc, ?_, ?_⟩
  · rw [handleStep_new interval s e hc]
    simp [save_to_csv_attempt, hok]
  · apply not_accepted_of_mem
    rw [hp]
    exact mem_decoded_runState interval mid _ _ (accepted_mem interval s e hacc)

/-- Witness for C7 at a concrete failing append. -/
theorem claimC7_witness :
    (handle_qr_data (5 : ℤ) (initSys 0 ⟨false, []⟩) ⟨"a", 1, "t", false⟩).accepted = true ∧
    "a" ∈ (handleStep (5 : ℤ) (initSys 0 ⟨false, []⟩) ⟨"a", 1, "t", false⟩).pipe.decoded_data ∧
    (handleStep (5 : ℤ) (initSys 0 ⟨false, []⟩) ⟨"a", 1, "t", false⟩).csv = ⟨false, []⟩ ∧
    (handle_qr_data (5 : ℤ)
        (runState 5 (handleStep 5 (initSys 0 ⟨false, []⟩) ⟨"a", 1, "t", false⟩) [])
        ⟨"a", 2, "u", true⟩).accepted = false := by
  have h := claimC7 ℤ 5 (initSys 0 ⟨false, []⟩) ⟨"a", 1, "t", false⟩ []
    ⟨"a", 2, "u", true⟩ rfl rfl (by decide)
  exact ⟨by decide, h.1, h.2.1, h.2.2⟩

/-- C8: in every state reachable from the initial state by handled
payloads, last_decoded_data, when present, is a member of
decoded_data. -/
theorem claimC8 (K : Type) [LinearOrderedCommRing K] (interval t0 : K) (fs : CsvFile)
    (events : List (QrEvent K)) (p : String)
    (h : (runState interval (initSys t0 fs) events).pipe.last_decoded_data = some p) :
    p ∈ (runState interval (initSys t0 fs) events).pipe.decoded_data := by
  have hinv := runState_inv interval
    (fun st => ∀ q, st.pipe.last_decoded_data = some q → q ∈ st.pipe.decoded_data)
    ?_ events (initSys t0 fs) ?_
  · exact hinv p h
  · intro s e hP q hq
    by_cases hc : some e.payload ≠ s.pipe.last_decoded_data ∧ e.payload ∉ s.pipe.decoded_data
    · rw [handleStep_new interval s e hc] at hq ⊢
      simp only at hq
      simp only [List.mem_append]
      cases hq
      simp
    · rw [handleStep_not_new interval s e hc] at hq ⊢
      exact hP q hq
  · intro q hq
    simp [initSys, initPipe] at hq

/-- Witness for C8 after one accepted payload. -/
theorem claimC8_witness :
    (runState (5 : ℤ) (initSys 0 ⟨false, []⟩) [⟨"a", 1, "t", true⟩]).pipe.last_decoded_data
        = some "a" ∧
    "a" ∈ (runState (5 : ℤ) (initSys 0 ⟨false, []⟩) [⟨"a", 1, "t", true⟩]).pipe.decoded_data := by
  exact ⟨by decide, claimC8 ℤ 5 0 ⟨false, []⟩ [⟨"a", 1, "t", true⟩] "a" (by decide)⟩

/-- C9: in every reachable state the list decoded_data has no duplicate
entries; moreover each handled payload either leaves the list unchanged
or appends one element that was not yet a member, and entries are never
removed. -/
theorem claimC9 (K : Type) [LinearOrderedCommRing K] (interval t0 : K) (fs : CsvFile)
    (events : List (QrEvent K)) :
    (runState interval (initSys t0 fs) events).pipe.decoded_data.Nodup ∧
    (∀ (s : SysState K) (e : QrEvent K),
      (handleStep interval s e).pipe.decoded_data = s.pipe.decoded_data ∨
      ((handleStep interval s e).pipe.decoded_data = s.pipe.decoded_data ++ [e.payload] ∧
        e.payload ∉ s.pipe.decoded_data)) := by
  constructor
  · refine runState_inv interval (fun st => st.pipe.decoded_data.Nodup) ?_ events
      (initSys t0 fs) ?_
    · intro s e hP
      by_cases hc : some e.payload ≠ s.pipe.last_decoded_data ∧ e.payload ∉ s.pipe.decoded_data
      · rw [handleStep_new interval s e hc]
        simp only [List.nodup_append, List.nodup_cons, List.nodup_nil]
        refine ⟨hP, by simp, ?_⟩
        intro a ha hb
        simp at hb
        rw [hb] at ha
        exact hc.2 ha
      · rw [handleStep_not_new interval s e hc]
        exact hP
    · simp [initSys, initPipe]
  · intro s e
    by_cases hc : some e.payload ≠ s.pipe.last_decoded_data ∧ e.payload ∉ s.pipe.decoded_data
    · right
      rw [handleStep_new interval s e hc]
      exact ⟨rfl, hc.2⟩
    · left
      rw [handleStep_not_new interval s e hc]

/-- C10: last_open_time changes only when a dispatch occurs.  The first
conjunct spells out when that is (new payload, URL-shaped, gap above the
interval); without a dispatch last_open_time is unchanged, and a
dispatch sets it to the clock value read. -/
theorem claimC10 (K : Type) [LinearOrderedCommRing K] (interval : K)
    (s : SysState K) (e : QrEvent K) :
    ((handle_qr_data interval s e).dispatched = true ↔
      ((some e.payload ≠ s.pipe.last_decoded_data ∧ e.payload ∉ s.pipe.decoded_data) ∧
        is_url e.payload = true ∧ interval < e.now - s.pipe.last_open_time)) ∧
    ((handle_qr_data interval s e).dispatched = false →
      (handleStep interval s e).pipe.last_open_time = s.pipe.last_open_time) ∧
    ((handle_qr_data interval s e).dispatched = true →
      (handleStep interval s e).pipe.last_open_time = e.now) :=
  ⟨dispatch_iff interval s e,
    fun h => lastOpen_not_dispatched interval s e h,
    fun h => lastOpen_dispatched interval s e h⟩

/-- Witness for C10: a new non-URL payload is accepted without touching
last_open_time, and a new URL payload past the interval updates it. -/
theorem claimC10_witness :
    (handle_qr_data (5 : ℤ) (initSys 0 ⟨false, []⟩) ⟨"hello", 9, "t", true⟩).dispatched
        = false ∧
    (handleStep (5 : ℤ) (initSys 0 ⟨false, []⟩) ⟨"hello", 9, "t", true⟩).pipe.last_open_time
        = (initSys (0 : ℤ) ⟨false, []⟩).pipe.last_open_time ∧
    (handle_qr_data (5 : ℤ) (initSys 0 ⟨false, []⟩) ⟨"https://a", 9, "t", true⟩).dispatched
        = true ∧
    (handleStep (5 : ℤ) (initSys 0 ⟨false, []⟩) ⟨"https://a", 9, "t", true⟩).pipe.last_open_time
        = 9 := by
  refine ⟨by decide, ?_, by decide, ?_⟩
  · exact (claimC10 ℤ 5 (initSys 0 ⟨false, []⟩) ⟨"hello", 9, "t", true⟩).2.1 (by decide)
  · exact (claimC10 ℤ 5 (initSys 0 ⟨false, []⟩) ⟨"https://a", 9, "t", true⟩).2.2 (by decide)

/-- Every dispatch along a run happens strictly more than open_interval
after the last_open_time the run started with. -/
theorem dispatchTimes_sep {K : Type} [LinearOrderedCommRing K] (interval : K)
    (hI : 0 ≤ interval) :
    ∀ (es : List (QrEvent K)) (s : SysState K) (u : K),
      u ∈ dispatchTimes interval s es → s.pipe.last_open_time + interval < u
  | [], s, u, h => by simp [dispatchTimes] at h
  | e :: es, s, u, h => by
    rw [dispatchTimes] at h
    cases hd : (handle_qr_data interval s e).dispatched with
    | false =>
      rw [hd] at h
      simp only [Bool.false_eq_true, if_false, List.nil_append] at h
      have ih := dispatchTimes_sep interval hI es (handleStep interval s e) u h
      rw [lastOpen_not_dispatched interval s e hd] at ih
      exact ih
    | true =>
      rw [hd] at h
      simp only [if_true, List.singleton_append, List.mem_cons] at h
      have hgap := ((dispatch_iff interval s e).mp hd).2.2
      rcases h with h1 | h2
      · rw [h1]
        linarith
      · have ih := dispatchTimes_sep interval hI es (handleStep interval s e) u h2
        rw [lastOpen_dispatched interval s e hd] at ih
        linarith

/-- Successive dispatches along a run are separated by strictly more
than open_interval. -/
theorem dispatchTimes_pairwise {K : Type} [LinearOrderedCommRing K] (interval : K)
    (hI : 0 ≤ interval) :
    ∀ (es : List (QrEvent K)) (s : SysState K),
      (dispatchTimes interval s es).Pairwise (fun a b => a + interval < b)
  | [], s => by simp [dispatchTimes]
  | e :: es, s => by
    rw [dispatchTimes]
    cases hd : (handle_qr_data interval s e).dispatched with
    | false =>
      simp only [Bool.false_eq_true, if_false, List.nil_append]
      exact dispatchTimes_pairwise interval hI es (handleStep interval s e)
    | true =>
      simp only [if_true, List.singleton_append, List.pairwise_cons]
      constructor
      · intro u hu
        have hsep := dispatchTimes_sep interval hI es (handleStep interval s e) u hu
        rw [lastOpen_dispatched interval s e hd] at hsep
        exact hsep
      · exact dispatchTimes_pairwise interval hI es (handleStep interval s e)

/-- A list whose entries are pairwise more than interval apart meets a
window of width at most interval in at most one point. -/
theorem pairwise_filter_window {K : Type} [LinearOrderedCommRing K]
    (interval t1 t2 : K) (hw : t2 - t1 ≤ interval) (l : List K)
    (hpw : l.Pairwise (fun a b => a + interval < b)) :
    (l.filter (fun u => decide (t1 ≤ u) && decide (u ≤ t2))).length ≤ 1 := by
  have hpf : (l.filter (fun u => decide (t1 ≤ u) && decide (u ≤ t2))).Pairwise
      (fun a b => a + interval < b) := hpw.sublist (List.filter_sublist l)
  cases hfe : l.filter (fun u => decide (t1 ≤ u) && decide (u ≤ t2)) with
  | nil => simp
  | cons a tl =>
    cases htl : tl with
    | nil => simp
    | cons b tl2 =>
      exfalso
      rw [hfe, htl] at hpf
      have hab : a + interval < b := (List.pairwise_cons.mp hpf).1 b (by simp)
      have ha : a ∈ l.filter (fun u => decide (t1 ≤ u) && decide (u ≤ t2)) := by
        rw [hfe]; simp
      have hb : b ∈ l.filter (fun u => decide (t1 ≤ u) && decide (u ≤ t2)) := by
        rw [hfe, htl]; simp
      simp only [List.mem_filter, Bool.and_eq_true, decide_eq_true_eq] at ha hb
      linarith [ha.2.1, hb.2.2]

/-- C3: for a new URL-shaped payload handled at clock value now, the
side effect is dispatched iff now - last_open_time is strictly greater
than open_interval, and exactly when dispatched last_open_time becomes
now; consequently along any run, a window of width at most open_interval
preceded by a dispatch contains at most one dispatch. -/
theorem claimC3 (K : Type) [LinearOrderedCommRing K] (interval : K)
    (s : SysState K) (e : QrEvent K)
    (hnew : (handle_qr_data interval s e).accepted = true)
    (hurl : is_url e.payload = true)
    (s0 : SysState K) (events : List (QrEvent K)) (t1 t2 : K)
    (h12 : t1 < t2) (hw : t2 - t1 ≤ interval)
    (_hprev : ∃ u ∈ dispatchTimes interval s0 events, u ≤ t1) :
    ((handle_qr_data interval s e).dispatched = true ↔
      interval < e.now - s.pipe.last_open_time) ∧
    ((handle_qr_data interval s e).dispatched = true →
      (handleStep interval s e).pipe.last_open_time = e.now) ∧
    ((handle_qr_data interval s e).dispatched = false →
      (handleStep interval s e).pipe.last_open_time = s.pipe.last_open_time) ∧
    ((dispatchTimes interval s0 events).filter
        (fun u => decide (t1 ≤ u) && decide (u ≤ t2))).length ≤ 1 := by
  refine ⟨?_, fun h => lastOpen_dispatched interval s e h,
    fun h => lastOpen_not_dispatched interval s e h, ?_⟩
  · constructor
    · intro hd
      exact ((dispatch_iff interval s e).mp hd).2.2
    · intro hgap
      exact (dispatch_iff interval s e).mpr ⟨(accepted_iff interval s e).mp hnew, hurl, hgap⟩
  · rcases le_or_lt 0 interval with hI | hI
    · exact pairwise_filter_window interval t1 t2 hw _
        (dispatchTimes_pairwise interval hI events s0)
    · have hf : False := by linarith
      exact hf.elim

/-- Witness for C3: a URL dispatched at instant 10 with interval 5, and
the window from 10 to 12 containing exactly that one dispatch. -/
theorem claimC3_witness :
    (handle_qr_data (5 : ℤ) (initSys 0 ⟨false, []⟩) ⟨"https://a", 10, "t", true⟩).accepted
        = true ∧
    (handle_qr_data (5 : ℤ) (initSys 0 ⟨false, []⟩) ⟨"https://a", 10, "t", true⟩).dispatched
        = true ∧
    ((dispatchTimes (5 : ℤ) (initSys 0 ⟨false, []⟩) [⟨"https://a", 10, "t", true⟩]).filter
        (fun u => decide ((10 : ℤ) ≤ u) && decide (u ≤ 12))).length ≤ 1 := by
  have h := claimC3 ℤ 5 (initSys 0 ⟨false, []⟩) ⟨"https://a", 10, "t", true⟩
    (by decide) (by decide) (initSys 0 ⟨false, []⟩) [⟨"https://a", 10, "t", true⟩] 10 12
    (by decide) (by decide) ⟨10, by decide, by decide⟩
  exact ⟨by decide, h.1.mpr (by decide), h.2.2.2⟩

/-- The proceed-flags of consecutive ticks, in closed form. -/
theorem throttleRun_eq_map (skip : Nat) :
    ∀ (m c : Nat),
      throttleRun skip c m
        = (List.range m).map (fun k => (c + k + 1) % (skip + 1) == 0)
  | 0, _ => by simp [throttleRun]
  | Nat.succ m, c => by
    rw [throttleRun, List.range_succ_eq_map]
    simp only [List.map_cons, List.map_map]
    congr 1
    simp only [shouldProcess]
    rw [throttleRun_eq_map skip m ((c + 1) % (skip + 1))]
    have hfun : (fun k => ((c + 1) % (skip + 1) + k + 1) % (skip + 1) == 0)
        = ((fun k => (c + k + 1) % (skip + 1) == 0) ∘ Nat.succ) := by
      funext k
      simp only [Function.comp]
      congr 1
      rw [Nat.add_assoc ((c + 1) % (skip + 1)) k 1, Nat.mod_add_mod]
      congr 1
      omega
    rw [hfun]

/-- A predicate holding at exactly one point below m is counted once on
List.range m. -/
theorem countP_range_eq_one (p : Nat → Bool) :
    ∀ (m k0 : Nat), k0 < m → p k0 = true → (∀ k, k < m → p k = true → k = k0) →
      (List.range m).countP p = 1
  | 0, _, hk, _, _ => absurd hk (by omega)
  | Nat.succ m, k0, hk, hp, hu => by
    rw [List.range_succ, List.countP_append]
    by_cases hkm : k0 = m
    · have h0 : (List.range m).countP p = 0 := by
        rw [List.countP_eq_zero]
        intro a ha hpa
        rw [List.mem_range] at ha
        have := hu a (by omega) hpa
        omega
      have h1 : [m].countP p = 1 := by
        rw [hkm] at hp
        simp [List.countP_cons, hp]
      omega
    · have h1 := countP_range_eq_one p m k0 (by omega) hp
        (fun k hkm2 hpk => hu k (by omega) hpk)
      have h2 : [m].countP p = 0 := by
        rw [List.countP_eq_zero]
        intro a ha hpa
        simp at ha
        rw [ha] at hpa
        exact hkm (hu m (by omega) hpa).symm
      omega

/-- The counter value n - c % (n+1) ticks after counter value c hits 0. -/
theorem throttle_hits_mod (n c : Nat) : (c + (n - c % (n + 1)) + 1) % (n + 1) = 0 := by
  have hdm := Nat.div_add_mod c (n + 1)
  have hlt : c % (n + 1) < n + 1 := Nat.mod_lt c (by omega)
  have key : c + (n - c % (n + 1)) + 1 = (n + 1) * (c / (n + 1)) + (n + 1) := by omega
  rw [key]
  have h2 : (n + 1) * (c / (n + 1)) + (n + 1) = (n + 1) * (c / (n + 1) + 1) := by ring
  rw [h2]
  exact Nat.mul_mod_right _ _

/-- Only that tick hits 0 within a window of n+1 consecutive ticks. -/
theorem throttle_unique_mod (n c k : Nat) (hk : k < n + 1)
    (hpk : (c + k + 1) % (n + 1) = 0) : k = n - c % (n + 1) := by
  have hdm := Nat.div_add_mod c (n + 1)
  have hlt : c % (n + 1) < n + 1 := Nat.mod_lt c (by omega)
  have hsplit : c + k + 1 = (c % (n + 1) + k + 1) + (n + 1) * (c / (n + 1)) := by omega
  rw [hsplit, Nat.add_mul_mod_self_left] at hpk
  obtain ⟨b, hb⟩ := Nat.dvd_of_mod_eq_zero hpk
  have hb1 : b = 1 := by
    by_contra hne
    rcases Nat.lt_or_ge b 2 with h2 | h2
    · have hb0 : b = 0 := by omega
      rw [hb0, Nat.mul_zero] at hb
      omega
    · have hmul : (n + 1) * 2 ≤ (n + 1) * b := Nat.mul_le_mul_left _ h2
      omega
  rw [hb1, Nat.mul_one] at hb
  omega

/-- With skip_frames = 0 every tick proceeds. -/
theorem throttleRun_skip_zero :
    ∀ (m c : Nat), throttleRun 0 c m = List.replicate m true
  | 0, _ => rfl
  | Nat.succ m, c => by
    rw [throttleRun, throttleRun_skip_zero m (shouldProcess 0 c).1]
    simp [shouldProcess, Nat.mod_one, List.replicate_succ]

/-- C4: the throttle advances frame_counter modulo skip_frames + 1 on
every tick and lets the tick proceed exactly when the advanced counter
is 0; any skip_frames + 1 consecutive ticks contain exactly one
processed tick, and with skip_frames = 0 every tick proceeds. -/
theorem claimC4 (n c : Nat) :
    ((shouldProcess n c).1 = (c + 1) % (n + 1) ∧
      ((shouldProcess n c).2 = true ↔ (c + 1) % (n + 1) = 0)) ∧
    (throttleRun n c (n + 1)).count true = 1 ∧
    (∀ m, throttleRun 0 c m = List.replicate m true) := by
  refine ⟨⟨rfl, by simp [shouldProcess]⟩, ?_, fun m => throttleRun_skip_zero m c⟩
  rw [throttleRun_eq_map n (n + 1) c]
  have hcount :
      (List.map (fun k => (c + k + 1) % (n + 1) == 0) (List.range (n + 1))).count true
        = (List.range (n + 1)).countP
            ((fun b => b == true) ∘ (fun k => (c + k + 1) % (n + 1) == 0)) :=
    List.countP_map _ _ _
  rw [hcount]
  have hcomp : ((fun b => b == true) ∘ (fun k => (c + k + 1) % (n + 1) == 0))
      = (fun k => (c + k + 1) % (n + 1) == 0) := by
    funext k
    simp [Function.comp]
  rw [hcomp]
  refine countP_range_eq_one _ (n + 1) (n - c % (n + 1)) (by omega) ?_ ?_
  · rw [beq_iff_eq]
    exact throttle_hits_mod n c
  · intro k hkk hpk
    rw [beq_iff_eq] at hpk
    exact throttle_unique_mod n c k hkk hpk

/-- C5 (amended): on a tick where the throttle lets processing proceed
and the frame read fails, process_frame returns leaving every modeled
component unchanged except frame_counter, which holds the advanced
value 0 written by the throttle step at the start of the tick. -/
theorem claimC5 (K : Type) [LinearOrderedCommRing K] (cfg : Config K)
    (s : SysState K) (inp : FrameInput K)
    (hthr : (s.pipe.frame_counter + 1) % (cfg.skip_frames + 1) = 0)
    (hread : inp.readOk = false) :
    process_frame cfg s inp = { s with pipe := { s.pipe with frame_counter := 0 } } := by
  simp only [process_frame, shouldProcess]
  rw [hthr, hread]
  simp

/-- Witness for C5 (amended) at skip_frames = 2, counter 2, failing read. -/
theorem claimC5_witness :
    process_frame (⟨false, 2, 5⟩ : Config ℤ) ⟨⟨none, 0, 0, 0, 0, [], 2⟩, ⟨false, []⟩⟩
        ⟨false, 7, 9, []⟩
      = ⟨⟨none, 0, 0, 0, 0, [], 0⟩, ⟨false, []⟩⟩ :=
  claimC5 ℤ ⟨false, 2, 5⟩ ⟨⟨none, 0, 0, 0, 0, [], 2⟩, ⟨false, []⟩⟩ ⟨false, 7, 9, []⟩
    (by decide) rfl

/-- Counterexample to C5 as stated: with skip_frames = 2 and counter 2
at the start of the tick, the throttle lets the tick proceed, the read
fails, and frame_counter nevertheless differs from its value at the
start of the tick. -/
theorem claimC5_cex :
    ((2 + 1) % (2 + 1) = 0) ∧
    (process_frame (⟨false, 2, 5⟩ : Config ℤ)
        ⟨⟨none, 0, 0, 0, 0, [], 2⟩, ⟨false, []⟩⟩ ⟨false, 7, 9, []⟩).pipe.frame_counter
      ≠ (⟨⟨none, 0, 0, 0, 0, [], 2⟩, ⟨false, []⟩⟩ : SysState ℤ).pipe.frame_counter := by
  decide

/-- Appending to an existing file never writes the header and adds the
data rows in order. -/
theorem runAppends_present :
    ∀ (l : List (String × String)) (fs : CsvFile), fs.present = true →
      (runAppends fs l).present = true ∧
      (runAppends fs l).rows = fs.rows ++ l.map (fun q => [q.1, q.2])
  | [], fs, h => by simp [runAppends, h]
  | q :: l, fs, h => by
    have hstep : save_to_csv fs q.1 q.2
        = { present := true, rows := fs.rows ++ [[q.1, q.2]] } := by
      simp [save_to_csv, h]
    have ih := runAppends_present l { present := true, rows := fs.rows ++ [[q.1, q.2]] } rfl
    constructor
    · rw [show runAppends fs (q :: l) = runAppends (save_to_csv fs q.1 q.2) l from rfl, hstep]
      exact ih.1
    · rw [show runAppends fs (q :: l) = runAppends (save_to_csv fs q.1 q.2) l from rfl, hstep]
      rw [ih.2]
      simp

/-- C6 (amended): the header row is written by exactly those appends
that find the target file absent.  In a run whose target file is absent
at the start, the file after the appends holds the header once, first,
followed by one data row (formattedTimestamp, content) per append, in
order; a single append adds exactly its own data row iff the file
already existed, and every append only ever appends to the existing
rows. -/
theorem claimC6 :
    (∀ (q : String × String) (l : List (String × String)),
      (runAppends ⟨false, []⟩ (q :: l)).rows
        = csvHeader :: (q :: l).map (fun x => [x.1, x.2])) ∧
    (∀ (fs : CsvFile) (ts d : String),
      ((save_to_csv fs ts d).rows = fs.rows ++ [[ts, d]] ↔ fs.present = true)) ∧
    (∀ (fs : CsvFile) (ts d : String), ∃ t,
      (save_to_csv fs ts d).rows = fs.rows ++ t) := by
  refine ⟨?_, ?_, ?_⟩
  · intro q l
    have h0 : save_to_csv ⟨false, []⟩ q.1 q.2
        = { present := true, rows := [csvHeader, [q.1, q.2]] } := by
      simp [save_to_csv]
    rw [show runAppends ⟨false, []⟩ (q :: l)
          = runAppends (save_to_csv ⟨false, []⟩ q.1 q.2) l from rfl, h0]
    rw [(runAppends_present l _ rfl).2]
    simp
  · intro fs ts d
    by_cases hp : fs.present = true
    · simp [save_to_csv, hp]
    · simp only [save_to_csv, hp, if_false, Bool.false_eq_true]
      constructor
      · intro h
        exfalso
        have hl := congrArg List.length h
        simp at hl
      · intro h
        exact h.elim
  · intro fs ts d
    by_cases hp : fs.present = true
    · exact ⟨[[ts, d]], by simp [save_to_csv, hp]⟩
    · exact ⟨[csvHeader, [ts, d]], by simp [save_to_csv, hp]⟩

/-- Counterexample to C6 as stated: in a run whose target file already
exists when the process starts (a survivor of an earlier run), the
first append of the process lifetime writes no header row. -/
theorem claimC6_cex :
    (runAppends ⟨true, []⟩ [("2024-01-01 00:00:00", "hello")]).rows
        = [["2024-01-01 00:00:00", "hello"]] ∧
    csvHeader ∉ (runAppends ⟨true, []⟩ [("2024-01-01 00:00:00", "hello")]).rows := by
  decide

end QRScan
